import Mathlib

/-!
Shallow embedding of the training-loop controller in
`src/models/T3_style_lim100/src/main_CNN2D.py`.

The controller (`main`) is embedded directly from the source.  The
`EarlyStopping` class lives in `utils/evaluate.py`, which is not part of the
sources here; it is modelled from the spec (§4.1).  Validation losses are
modelled as rationals, the epoch loop as fuel recursion on the configured
epoch count, and the `KeyboardInterrupt` as an explicit interruption point
checked at the top of an epoch body.
-/

set_option autoImplicit false

namespace CNN2D

/-- Configuration options recognized by the run (spec §6: `seed`,
`batch_size`, `epoch`, `patience`, `lr`, `method`). -/
structure Config where
  seed : ℕ
  batchSize : ℚ
  epochs : ℕ
  patience : ℕ
  lr : ℚ
  method : String
deriving DecidableEq

/-- Parameters of the EarlyStopping policy: `patience` and the optional
`min_delta` improvement threshold (0 when unspecified). -/
structure ESConfig where
  patience : ℕ
  minDelta : ℚ
deriving DecidableEq

/-- State of the EarlyStopping policy: `bestScore` (`none` is the initial
+infinity), the patience `counter`, the stop flag, and the epoch labels whose
checkpoint the policy has persisted. -/
structure ESState where
  bestScore : Option ℚ
  counter : ℕ
  earlyStop : Bool
  saved : List ℕ
deriving DecidableEq

/-- Initial EarlyStopping state: best score +infinity, counter 0, no stop,
nothing persisted. -/
def esInit : ESState := ⟨none, 0, false, []⟩

/-- Modelled from the spec: the improvement test of `EarlyStopping.__call__`
(`utils/evaluate.py`, absent from the sources).  Spec §4.1: improvement iff
`current_score < best_score - min_delta`; the very first score always
improves (best starts at +infinity); ties do not improve. -/
def improves (p : ESConfig) (s : ESState) (score : ℚ) : Bool :=
  match s.bestScore with
  | none => true
  | some b => decide (score < b - p.minDelta)

/-- Modelled from the spec: one evaluation of `EarlyStopping.__call__`
(`utils/evaluate.py`, absent from the sources).  Spec §4.1: on improvement
record the new best, reset the counter and persist this epoch's checkpoint;
otherwise increment the counter and raise the stop flag once it reaches
`patience`. -/
def esStep (p : ESConfig) (s : ESState) (score : ℚ) (epoch : ℕ) : ESState :=
  if improves p s score then
    ⟨some score, 0, s.earlyStop, s.saved ++ [epoch]⟩
  else
    let c := s.counter + 1
    ⟨s.bestScore, c, s.earlyStop || decide (p.patience ≤ c), s.saved⟩

/-- The EarlyStopping state after feeding the first `n` validation scores
`scores 0, …, scores (n-1)`, each labeled with its epoch index. -/
def esRunN (p : ESConfig) (scores : ℕ → ℚ) : ℕ → ESState
  | 0 => esInit
  | n + 1 => esStep p (esRunN p scores n) (scores n) n

/-- The validation-score sequence `[5.0, 4.0, 4.0, 4.0]` of the spec's
worked example. -/
def scoresC4 : ℕ → ℚ := fun n => if n = 0 then 5 else 4

/-- EarlyStopping parameters of the worked example: `patience = 2`,
`min_delta = 0`. -/
def pC4 : ESConfig := ⟨2, 0⟩

/-- Claim C4, counterexample: on scores `[5.0, 4.0, 4.0, 4.0]` with
`patience = 2` the third evaluation (index 2) still returns continue — the
stop flag is not set after three evaluations, and the counter is only 1
there (4.0 ties the best score 4.0, ties do not improve, so the first
non-improvement is at index 2). -/
theorem earlystop_example_not_stopped_at_index_two :
    (esRunN pC4 scoresC4 3).earlyStop = false ∧ (esRunN pC4 scoresC4 3).counter = 1 := by
  norm_num [esRunN, esStep, improves, esInit, scoresC4, pC4]

/-- Claim C4 (amended): on scores `[5.0, 4.0, 4.0, 4.0]` with `patience = 2`
and `min_delta = 0`, the first three evaluations return continue and the
stop flag is first set at the fourth evaluation (zero-based index 3), with
`best_score = 4.0` at that point. -/
theorem earlystop_example_stops_at_index_three :
    (esRunN pC4 scoresC4 1).earlyStop = false ∧
    (esRunN pC4 scoresC4 2).earlyStop = false ∧
    (esRunN pC4 scoresC4 3).earlyStop = false ∧
    (esRunN pC4 scoresC4 4).earlyStop = true ∧
    (esRunN pC4 scoresC4 4).bestScore = some 4 := by
  norm_num [esRunN, esStep, improves, esInit, scoresC4, pC4]

/-- Claim C5: after each evaluation the patience counter is 0 exactly when
that evaluation recognized an improvement and is the previous counter plus
one otherwise; and as long as the policy has not returned stop, the counter
never exceeds `patience`. -/
theorem earlystop_counter_invariant (p : ESConfig) (scores : ℕ → ℚ) (n : ℕ) :
    ((esRunN p scores (n + 1)).counter =
      if improves p (esRunN p scores n) (scores n) = true then 0
      else (esRunN p scores n).counter + 1) ∧
    ((esRunN p scores n).earlyStop = false →
      (esRunN p scores n).counter ≤ p.patience) := by
  constructor
  · by_cases h : improves p (esRunN p scores n) (scores n) = true
    · simp [esRunN, esStep, h]
    · simp [esRunN, esStep, h]
  · intro hstop
    cases n with
    | zero => exact Nat.zero_le _
    | succ m =>
      by_cases h : improves p (esRunN p scores m) (scores m) = true
      · simp [esRunN, esStep, h]
      · have hc : (esRunN p scores (m + 1)).counter = (esRunN p scores m).counter + 1 := by
          simp [esRunN, esStep, h]
        have hflag : (esRunN p scores (m + 1)).earlyStop =
            ((esRunN p scores m).earlyStop ||
              decide (p.patience ≤ (esRunN p scores m).counter + 1)) := by
          simp [esRunN, esStep, h]
        rw [hflag] at hstop
        have hle : ¬ p.patience ≤ (esRunN p scores m).counter + 1 := by
          intro hle
          simp [hle] at hstop
        rw [hc]
        omega

/-- Concrete EarlyStopping parameters for exercising the counter invariant. -/
def pC5 : ESConfig := ⟨2, 0⟩

/-- Constant validation scores (no improvement after the first epoch). -/
def flatScores : ℕ → ℚ := fun _ => 5

theorem earlystop_counter_invariant_witness :
    ((esRunN pC5 flatScores 2).counter =
      if improves pC5 (esRunN pC5 flatScores 1) (flatScores 1) = true then 0
      else (esRunN pC5 flatScores 1).counter + 1) ∧
    (esRunN pC5 flatScores 1).counter ≤ pC5.patience := by
  have h := earlystop_counter_invariant pC5 flatScores 1
  exact ⟨h.1, h.2 (by norm_num [esRunN, esStep, improves, esInit, flatScores, pC5])⟩

/-- Claim C7 (amended): an evaluation appends the current epoch's label to
the persisted-checkpoint list exactly when it recognizes an improvement and
leaves the list unchanged otherwise; every persisted label is the index of
an already-executed epoch. -/
theorem checkpoint_persisted_only_on_improvement (p : ESConfig) (scores : ℕ → ℚ) (n : ℕ) :
    ((esRunN p scores (n + 1)).saved =
      (esRunN p scores n).saved ++
        (if improves p (esRunN p scores n) (scores n) = true then [n] else [])) ∧
    (∀ e ∈ (esRunN p scores n).saved, e < n) := by
  constructor
  · by_cases h : improves p (esRunN p scores n) (scores n) = true
    · simp [esRunN, esStep, h]
    · simp [esRunN, esStep, h]
  · induction n with
    | zero => intro e he; simp [esRunN, esInit] at he
    | succ m ih =>
      intro e he
      by_cases h : improves p (esRunN p scores m) (scores m) = true
      · simp [esRunN, esStep, h] at he
        rcases he with he | he
        · exact Nat.lt_succ_of_lt (ih e he)
        · omega
      · simp [esRunN, esStep, h] at he
        exact Nat.lt_succ_of_lt (ih e he)

theorem checkpoint_persisted_only_on_improvement_witness :
    ((esRunN pC5 flatScores 2).saved =
      (esRunN pC5 flatScores 1).saved ++
        (if improves pC5 (esRunN pC5 flatScores 1) (flatScores 1) = true then [1] else [])) ∧
    (0 : ℕ) < 1 := by
  have h := checkpoint_persisted_only_on_improvement pC5 flatScores 1
  exact ⟨h.1, h.2 0 (by norm_num [esRunN, esStep, improves, esInit, flatScores, pC5])⟩

/-- Left-pad a digit string with zeros up to width `w` (helper for Python's
zero-padded format). -/
def zeroPad (w : ℕ) (d : String) : String :=
  String.mk (List.replicate (w - d.length) '0') ++ d

/-- Python's `f'{n:05}'` on an int: total width 5, the sign counted in the
width, zero-padded, never truncated. -/
def fmt05 (n : ℤ) : String :=
  if n < 0 then "-" ++ zeroPad 4 (toString n.natAbs)
  else zeroPad 5 (toString n.toNat)

/-- Checkpoint file name `f'epoch{n:05}.pt'` (lines 73, 80, 88). -/
def ckptName (n : ℤ) : String := "epoch" ++ fmt05 n ++ ".pt"

/-- How the `try` block of `main` ended: loop broken by early stopping,
`KeyboardInterrupt` caught with the loop variable bound, the `for` loop
exhausted, or `KeyboardInterrupt` caught before the loop bound `epoch`
(in which case the handler itself raises `NameError`). -/
inductive Terminal where
  | earlyStopped
  | interrupted
  | done
  | abortedBeforeLoop
deriving DecidableEq

/-- Where the external `KeyboardInterrupt` arrives, checked at epoch
boundaries: before the loop binds `epoch`, at the start of epoch `e`'s body,
or never. -/
inductive IntrPoint where
  | beforeLoop
  | atEpoch (e : ℕ)
  | noIntr
deriving DecidableEq

/-- Result of the epoch loop (lines 67–81) plus the `except` handler
(lines 83–88): final EarlyStopping state, last value bound to the `epoch`
variable, the value of `save_ep` if it was assigned, and how we left. -/
structure LoopOut where
  es : ESState
  epochVar : Option ℕ
  saveEp : Option ℤ
  terminal : Terminal
deriving DecidableEq

/-- Whether the interruption point is the start of epoch `e`. -/
def hitsIntr : Option ℕ → ℕ → Bool
  | some k, e => k == e
  | none, _ => false

/-- The epoch loop of `main` (lines 67–81), with the `except
KeyboardInterrupt` handler (lines 83–88) applied when the interruption point
is hit.  Per epoch: train, eval, schedule, then the EarlyStopping call with
this epoch's checkpoint path; on `early_stop`, `save_ep = epoch -
cfg.patience` and break; on interrupt, `save_ep = epoch - 1`.  When the loop
exhausts all epochs, `save_ep` is never assigned. -/
def loopFrom (cfg : Config) (losses : ℕ → ℚ) (ip : Option ℕ) :
    ℕ → ℕ → ESState → Option ℕ → LoopOut
  | _, 0, s, last => ⟨s, last, none, .done⟩
  | e, fuel + 1, s, _last =>
    if hitsIntr ip e then
      ⟨s, some e, some ((e : ℤ) - 1), .interrupted⟩
    else
      let s' := esStep ⟨cfg.patience, 0⟩ s (losses e) e
      if s'.earlyStop then
        ⟨s', some e, some ((e : ℤ) - (cfg.patience : ℤ)), .earlyStopped⟩
      else
        loopFrom cfg losses ip (e + 1) fuel s' (some e)

/-- One `ConfusionMatrix(...)` invocation of the reporting loop
(lines 100–112): the split name, the `save_name` argument
`f'{phaze[idx]}_{save_ep:05}'`, and the checkpoint path `model_PATH`. -/
structure Report where
  phase : String
  saveName : String
  modelPath : String
deriving DecidableEq

/-- The three reporting invocations (lines 99–112), one per split, all
loading the single checkpoint `save_model_dir`. -/
def mkReports (k : ℤ) : List Report :=
  ["train", "val", "test"].map fun ph => ⟨ph, ph ++ "_" ++ fmt05 k, ckptName k⟩

/-- Observable outcome of a whole `main` run: how the `try` block ended, the
final `epoch` variable, `save_ep` if assigned, the checkpoint labels the
EarlyStopping policy persisted, the reporting invocations if the reporting
loop could run, and whether the process aborted with a `NameError`
(unassigned `save_ep`/`save_model_dir`/`epoch`). -/
structure MainResult where
  terminal : Terminal
  epochVar : Option ℕ
  saveEp : Option ℤ
  persisted : List ℕ
  reports : Option (List Report)
  crashed : Bool
deriving DecidableEq

/-- The code after the `try/except` (lines 89–112): if `save_ep` was
assigned, the reporting loop runs once per split on the single checkpoint;
otherwise the first `ConfusionMatrix` call raises `NameError` on the unbound
`save_model_dir` and the process aborts. -/
def finishRun (lo : LoopOut) : MainResult :=
  match lo.saveEp with
  | some k => ⟨lo.terminal, lo.epochVar, some k, lo.es.saved, some (mkReports k), false⟩
  | none => ⟨lo.terminal, lo.epochVar, none, lo.es.saved, none, true⟩

/-- The whole of `main` after setup (lines 60–112): run the epoch loop with
`EarlyStopping(patience=cfg.patience)` (`min_delta` unspecified, hence 0),
then report.  A `KeyboardInterrupt` arriving before the loop body binds
`epoch` makes the handler itself raise `NameError` (line 87 reads `epoch`),
aborting the run with nothing assigned. -/
def mainRun (cfg : Config) (losses : ℕ → ℚ) (intr : IntrPoint) : MainResult :=
  match intr with
  | .beforeLoop => ⟨.abortedBeforeLoop, none, none, [], none, true⟩
  | .atEpoch e => finishRun (loopFrom cfg losses (some e) 0 cfg.epochs esInit none)
  | .noIntr => finishRun (loopFrom cfg losses none 0 cfg.epochs esInit none)

lemma hitsIntr_true {ip : Option ℕ} {e : ℕ} (h : hitsIntr ip e = true) : ip = some e := by
  cases ip with
  | none => simp [hitsIntr] at h
  | some k =>
    simp only [hitsIntr, beq_iff_eq] at h
    rw [h]

/-- Exhaustive description of how the epoch loop can end, starting from any
state whose stop flag is down and whose counter is consistent with the
number of epochs already run: either the loop exhausts its fuel with
`save_ep` unassigned, or it is interrupted at the configured epoch with
`save_ep = epoch - 1`, or early stopping fires at some epoch `k ≥ patience`
with `save_ep = k - patience`. -/
lemma loopFrom_cases (cfg : Config) (losses : ℕ → ℚ) (ip : Option ℕ) :
    ∀ (fuel e : ℕ) (s : ESState) (last : Option ℕ),
      s.earlyStop = false →
      (s.counter + 1 ≤ e ∨ s.bestScore = none) →
      ((loopFrom cfg losses ip e fuel s last).terminal = .done ∧
        (loopFrom cfg losses ip e fuel s last).saveEp = none) ∨
      (∃ k, (loopFrom cfg losses ip e fuel s last).terminal = .interrupted ∧
        ip = some k ∧
        (loopFrom cfg losses ip e fuel s last).epochVar = some k ∧
        (loopFrom cfg losses ip e fuel s last).saveEp = some ((k : ℤ) - 1)) ∨
      (∃ k, (loopFrom cfg losses ip e fuel s last).terminal = .earlyStopped ∧
        (loopFrom cfg losses ip e fuel s last).epochVar = some k ∧
        (loopFrom cfg losses ip e fuel s last).saveEp =
          some ((k : ℤ) - (cfg.patience : ℤ)) ∧
        cfg.patience ≤ k) := by
  intro fuel
  induction fuel with
  | zero =>
    intro e s last _ _
    left
    exact ⟨rfl, rfl⟩
  | succ r ih =>
    intro e s last hstop hinv
    by_cases hip : hitsIntr ip e = true
    · right; left
      exact ⟨e, by simp [loopFrom, hip], hitsIntr_true hip,
        by simp [loopFrom, hip], by simp [loopFrom, hip]⟩
    · by_cases himp : improves ⟨cfg.patience, 0⟩ s (losses e) = true
      · -- improvement: the new state cannot have the stop flag, recurse
        have hes : (esStep ⟨cfg.patience, 0⟩ s (losses e) e).earlyStop = false := by
          simp [esStep, himp, hstop]
        have hred : loopFrom cfg losses ip e (r + 1) s last =
            loopFrom cfg losses ip (e + 1) r
              (esStep ⟨cfg.patience, 0⟩ s (losses e) e) (some e) := by
          simp [loopFrom, hip, hes]
        rw [hred]
        apply ih (e + 1) _ (some e) hes
        left
        simp [esStep, himp]
      · -- no improvement: the best score must already exist
        have hbest : s.bestScore ≠ none := by
          intro hb
          apply himp
          simp [improves, hb]
        have hcnt : s.counter + 1 ≤ e := by
          rcases hinv with h | h
          · exact h
          · exact absurd h hbest
        by_cases hes : (esStep ⟨cfg.patience, 0⟩ s (losses e) e).earlyStop = true
        · -- patience exhausted at epoch e
          have hpat : cfg.patience ≤ s.counter + 1 := by
            simp [esStep, himp, hstop] at hes
            exact hes
          right; right
          exact ⟨e, by simp [loopFrom, hip, hes], by simp [loopFrom, hip, hes],
            by simp [loopFrom, hip, hes], le_trans hpat hcnt⟩
        · have hes' : (esStep ⟨cfg.patience, 0⟩ s (losses e) e).earlyStop = false := by
            revert hes
            cases (esStep ⟨cfg.patience, 0⟩ s (losses e) e).earlyStop <;> simp
          have hred : loopFrom cfg losses ip e (r + 1) s last =
              loopFrom cfg losses ip (e + 1) r
                (esStep ⟨cfg.patience, 0⟩ s (losses e) e) (some e) := by
            simp [loopFrom, hip, hes']
          rw [hred]
          apply ih (e + 1) _ (some e) hes'
          left
          have : (esStep ⟨cfg.patience, 0⟩ s (losses e) e).counter = s.counter + 1 := by
            simp [esStep, himp]
          omega

lemma finishRun_none {lo : LoopOut} (h : lo.saveEp = none) :
    finishRun lo = ⟨lo.terminal, lo.epochVar, none, lo.es.saved, none, true⟩ := by
  unfold finishRun
  rw [h]

lemma finishRun_some {lo : LoopOut} {k : ℤ} (h : lo.saveEp = some k) :
    finishRun lo =
      ⟨lo.terminal, lo.epochVar, some k, lo.es.saved, some (mkReports k), false⟩ := by
  unfold finishRun
  rw [h]

/-- How a full (non-`beforeLoop`) run of `main` can end, for any
interruption point. -/
lemma run_spec (cfg : Config) (losses : ℕ → ℚ) (ip : Option ℕ) :
    ((finishRun (loopFrom cfg losses ip 0 cfg.epochs esInit none)).terminal = .done ∧
      (finishRun (loopFrom cfg losses ip 0 cfg.epochs esInit none)).saveEp = none ∧
      (finishRun (loopFrom cfg losses ip 0 cfg.epochs esInit none)).reports = none ∧
      (finishRun (loopFrom cfg losses ip 0 cfg.epochs esInit none)).crashed = true) ∨
    (∃ k, (finishRun (loopFrom cfg losses ip 0 cfg.epochs esInit none)).terminal = .interrupted ∧
      ip = some k ∧
      (finishRun (loopFrom cfg losses ip 0 cfg.epochs esInit none)).epochVar = some k ∧
      (finishRun (loopFrom cfg losses ip 0 cfg.epochs esInit none)).saveEp = some ((k : ℤ) - 1) ∧
      (finishRun (loopFrom cfg losses ip 0 cfg.epochs esInit none)).reports =
        some (mkReports ((k : ℤ) - 1)) ∧
      (finishRun (loopFrom cfg losses ip 0 cfg.epochs esInit none)).crashed = false) ∨
    (∃ k, (finishRun (loopFrom cfg losses ip 0 cfg.epochs esInit none)).terminal = .earlyStopped ∧
      (finishRun (loopFrom cfg losses ip 0 cfg.epochs esInit none)).epochVar = some k ∧
      (finishRun (loopFrom cfg losses ip 0 cfg.epochs esInit none)).saveEp =
        some ((k : ℤ) - (cfg.patience : ℤ)) ∧
      (finishRun (loopFrom cfg losses ip 0 cfg.epochs esInit none)).reports =
        some (mkReports ((k : ℤ) - (cfg.patience : ℤ))) ∧
      (finishRun (loopFrom cfg losses ip 0 cfg.epochs esInit none)).crashed = false ∧
      cfg.patience ≤ k) := by
  rcases loopFrom_cases cfg losses ip cfg.epochs 0 esInit none rfl (Or.inr rfl) with
    ⟨ht, hs⟩ | ⟨k, ht, hik, hv, hs⟩ | ⟨k, ht, hv, hs, hp⟩
  · left
    rw [finishRun_none hs]
    exact ⟨ht, rfl, rfl, rfl⟩
  · right; left
    rw [finishRun_some hs]
    exact ⟨k, ht, hik, hv, rfl, rfl, rfl⟩
  · right; right
    rw [finishRun_some hs]
    exact ⟨k, ht, hv, rfl, rfl, rfl, hp⟩

/-- Validation losses that strictly improve every epoch, so early stopping
never fires. -/
def decliningScores : ℕ → ℚ := fun e => 10 - (e : ℚ)

/-- A configuration with 3 maximum epochs and patience 2. -/
def cfgC2 : Config := ⟨0, 100, 3, 2, 1 / 100, "run"⟩

/-- Claim C2: a run that completes all configured epochs without early
stopping leaves the loop with `epoch = max_epoch - 1`, but `save_ep` and
`save_model_dir` were never assigned, so the reporting stage raises
`NameError` before any report is written and the process aborts with a
non-zero exit. -/
theorem normal_completion_crashes_at_reporting :
    (mainRun cfgC2 decliningScores .noIntr).terminal = .done ∧
    (mainRun cfgC2 decliningScores .noIntr).epochVar = some 2 ∧
    (mainRun cfgC2 decliningScores .noIntr).saveEp = none ∧
    (mainRun cfgC2 decliningScores .noIntr).reports = none ∧
    (mainRun cfgC2 decliningScores .noIntr).crashed = true := by
  norm_num [mainRun, finishRun, loopFrom, hitsIntr, esStep, improves, esInit,
    decliningScores, cfgC2]

/-- A configuration with 10 maximum epochs and patience 2. -/
def cfgC1 : Config := ⟨0, 100, 10, 2, 1 / 100, "run"⟩

/-- Claim C1, counterexample: interrupting mid-epoch 5 of a run with
`patience = 2` makes the code select the checkpoint labeled `4`
(`save_ep = epoch - 1`), while `stop_epoch - patience` clamped at 0 is
`max ((5 - 1) - 2) 0 = 2`. -/
theorem interrupted_selection_is_not_patience_shifted :
    (mainRun cfgC1 decliningScores (.atEpoch 5)).terminal = .interrupted ∧
    (mainRun cfgC1 decliningScores (.atEpoch 5)).saveEp = some 4 ∧
    ¬ (4 : ℤ) = max (((5 : ℤ) - 1) - (cfgC1.patience : ℤ)) 0 := by
  norm_num [mainRun, finishRun, loopFrom, hitsIntr, esStep, improves, esInit,
    decliningScores, cfgC1]

/-- Claim C1 (amended): the reporting checkpoint depends on the terminal
state.  On early stop it is labeled `stop_epoch - patience` — unclamped, but
necessarily ≥ 0 because early stopping cannot fire before epoch `patience`;
on interrupt it is labeled `epoch - 1` (not `stop_epoch - patience`); on
normal completion of all epochs no checkpoint is selected at all and the
run crashes at the reporting stage. -/
theorem reporting_checkpoint_by_terminal (cfg : Config) (losses : ℕ → ℚ)
    (intr : IntrPoint) :
    (∀ e, (mainRun cfg losses intr).epochVar = some e →
      ((mainRun cfg losses intr).terminal = .earlyStopped →
        (mainRun cfg losses intr).saveEp = some ((e : ℤ) - (cfg.patience : ℤ)) ∧
        cfg.patience ≤ e) ∧
      ((mainRun cfg losses intr).terminal = .interrupted →
        (mainRun cfg losses intr).saveEp = some ((e : ℤ) - 1))) ∧
    ((mainRun cfg losses intr).terminal = .done →
      (mainRun cfg losses intr).saveEp = none ∧
      (mainRun cfg losses intr).crashed = true) := by
  cases intr with
  | beforeLoop =>
    constructor
    · intro e he
      simp [mainRun] at he
    · intro ht
      simp [mainRun] at ht
  | atEpoch e0 =>
    have hr : mainRun cfg losses (.atEpoch e0) =
        finishRun (loopFrom cfg losses (some e0) 0 cfg.epochs esInit none) := rfl
    rw [hr]
    rcases run_spec cfg losses (some e0) with
      ⟨ht, hs, _, hc⟩ | ⟨k, ht, _, hv, hs, _, _⟩ | ⟨k, ht, hv, hs, _, _, hp⟩
    · refine ⟨fun e _he => ⟨fun hterm => ?_, fun hterm => ?_⟩, fun _ => ⟨hs, hc⟩⟩
      · rw [ht] at hterm; simp at hterm
      · rw [ht] at hterm; simp at hterm
    · constructor
      · intro e he
        have hek : k = e := Option.some.inj (hv.symm.trans he)
        constructor
        · intro hterm
          rw [ht] at hterm; simp at hterm
        · intro _
          rw [← hek]
          exact hs
      · intro hterm
        rw [ht] at hterm; simp at hterm
    · constructor
      · intro e he
        have hek : k = e := Option.some.inj (hv.symm.trans he)
        constructor
        · intro _
          rw [← hek]
          exact ⟨hs, hp⟩
        · intro hterm
          rw [ht] at hterm; simp at hterm
      · intro hterm
        rw [ht] at hterm; simp at hterm
  | noIntr =>
    have hr : mainRun cfg losses .noIntr =
        finishRun (loopFrom cfg losses none 0 cfg.epochs esInit none) := rfl
    rw [hr]
    rcases run_spec cfg losses none with
      ⟨ht, hs, _, hc⟩ | ⟨k, ht, hik, hv, hs, _, _⟩ | ⟨k, ht, hv, hs, _, _, hp⟩
    · refine ⟨fun e _he => ⟨fun hterm => ?_, fun hterm => ?_⟩, fun _ => ⟨hs, hc⟩⟩
      · rw [ht] at hterm; simp at hterm
      · rw [ht] at hterm; simp at hterm
    · simp at hik
    · constructor
      · intro e he
        have hek : k = e := Option.some.inj (hv.symm.trans he)
        constructor
        · intro _
          rw [← hek]
          exact ⟨hs, hp⟩
        · intro hterm
          rw [ht] at hterm; simp at hterm
      · intro hterm
        rw [ht] at hterm; simp at hterm

theorem reporting_checkpoint_by_terminal_witness :
    (mainRun cfgC1 decliningScores (.atEpoch 5)).saveEp = some ((5 : ℤ) - 1) := by
  have h := reporting_checkpoint_by_terminal cfgC1 decliningScores (.atEpoch 5)
  refine (h.1 5 ?_).2 ?_ <;>
    norm_num [mainRun, finishRun, loopFrom, hitsIntr, esStep, improves, esInit,
      decliningScores, cfgC1]

/-- A configuration with 10 maximum epochs and patience 2, used for the
interruption scenario. -/
def cfgC6 : Config := ⟨0, 100, 10, 2, 1 / 100, "run"⟩

/-- Claim C6: an external interrupt that fires while the `epoch` variable is
bound to `e` (epoch `e` not completed) ends the run in the interrupted
terminal state with `save_ep = e - 1`, the last fully completed epoch. -/
theorem interrupt_records_last_completed_epoch (cfg : Config) (losses : ℕ → ℚ)
    (e : ℕ) (h : (mainRun cfg losses (.atEpoch e)).terminal = .interrupted) :
    (mainRun cfg losses (.atEpoch e)).saveEp = some ((e : ℤ) - 1) ∧
    (mainRun cfg losses (.atEpoch e)).epochVar = some e := by
  have hr : mainRun cfg losses (.atEpoch e) =
      finishRun (loopFrom cfg losses (some e) 0 cfg.epochs esInit none) := rfl
  rw [hr] at h ⊢
  rcases run_spec cfg losses (some e) with
    ⟨ht, _, _, _⟩ | ⟨k, ht, hik, hv, hs, _, _⟩ | ⟨k, ht, hv, _, _, _, _⟩
  · rw [ht] at h; simp at h
  · have hek : k = e := Option.some.inj hik.symm
    subst hek
    exact ⟨hs, hv⟩
  · rw [ht] at h; simp at h

theorem interrupt_records_last_completed_epoch_witness :
    (mainRun cfgC6 decliningScores (.atEpoch 5)).saveEp = some ((5 : ℤ) - 1) ∧
    (mainRun cfgC6 decliningScores (.atEpoch 5)).epochVar = some 5 := by
  apply interrupt_records_last_completed_epoch
  norm_num [mainRun, finishRun, loopFrom, hitsIntr, esStep, improves, esInit,
    decliningScores, cfgC6]

lemma mkReports_modelPath (k : ℤ) :
    (mkReports k).map Report.modelPath = [ckptName k, ckptName k, ckptName k] := rfl

lemma mkReports_phase (k : ℤ) :
    (mkReports k).map Report.phase = ["train", "val", "test"] := rfl

/-- A configuration whose run completes all epochs (2 epochs, patience 3). -/
def cfgC8x : Config := ⟨0, 100, 2, 3, 1 / 100, "run"⟩

/-- Claim C8, counterexample: a run that completes all configured epochs
reaches the reporting stage (the code after the `try` block always does)
with no checkpoint selected and zero successful Report Generator
invocations — not exactly one checkpoint regardless of terminal state. -/
theorem done_run_selects_no_checkpoint :
    (mainRun cfgC8x decliningScores .noIntr).terminal = .done ∧
    (mainRun cfgC8x decliningScores .noIntr).saveEp = none ∧
    (mainRun cfgC8x decliningScores .noIntr).reports = none ∧
    (mainRun cfgC8x decliningScores .noIntr).crashed = true := by
  norm_num [mainRun, finishRun, loopFrom, hitsIntr, esStep, improves, esInit,
    decliningScores, cfgC8x]

/-- Claim C8 (amended): a run that ends by early stopping or by an interrupt
caught with `epoch` bound selects exactly one checkpoint, and the Report
Generator is invoked exactly once per split (train, val, test), every
invocation loading that same single checkpoint path; a run that completes
all epochs selects no checkpoint and crashes at the reporting stage. -/
theorem single_checkpoint_per_reporting_run (cfg : Config) (losses : ℕ → ℚ)
    (intr : IntrPoint) :
    ((mainRun cfg losses intr).terminal = .earlyStopped ∨
        (mainRun cfg losses intr).terminal = .interrupted →
      (mainRun cfg losses intr).saveEp.isSome = true ∧
      (mainRun cfg losses intr).crashed = false) ∧
    (∀ k, (mainRun cfg losses intr).saveEp = some k →
      (mainRun cfg losses intr).reports = some (mkReports k) ∧
      (mkReports k).map Report.modelPath = [ckptName k, ckptName k, ckptName k] ∧
      (mkReports k).map Report.phase = ["train", "val", "test"]) := by
  cases intr with
  | beforeLoop =>
    constructor
    · intro hd
      rcases hd with h | h <;> simp [mainRun] at h
    · intro k hk
      simp [mainRun] at hk
  | atEpoch e0 =>
    have hr : mainRun cfg losses (.atEpoch e0) =
        finishRun (loopFrom cfg losses (some e0) 0 cfg.epochs esInit none) := rfl
    rw [hr]
    rcases run_spec cfg losses (some e0) with
      ⟨ht, hs, _, _⟩ | ⟨k, ht, _, _, hs, hrep, hc⟩ | ⟨k, ht, _, hs, hrep, hc, _⟩
    · constructor
      · intro hd
        rcases hd with h | h <;> (rw [ht] at h; simp at h)
      · intro k hk
        rw [hs] at hk
        simp at hk
    · constructor
      · intro _
        rw [hs]
        exact ⟨rfl, hc⟩
      · intro k' hk'
        have : (k : ℤ) - 1 = k' := Option.some.inj (hs.symm.trans hk')
        rw [← this]
        exact ⟨hrep, mkReports_modelPath _, mkReports_phase _⟩
    · constructor
      · intro _
        rw [hs]
        exact ⟨rfl, hc⟩
      · intro k' hk'
        have : (k : ℤ) - (cfg.patience : ℤ) = k' := Option.some.inj (hs.symm.trans hk')
        rw [← this]
        exact ⟨hrep, mkReports_modelPath _, mkReports_phase _⟩
  | noIntr =>
    have hr : mainRun cfg losses .noIntr =
        finishRun (loopFrom cfg losses none 0 cfg.epochs esInit none) := rfl
    rw [hr]
    rcases run_spec cfg losses none with
      ⟨ht, hs, _, _⟩ | ⟨k, ht, hik, _, hs, hrep, hc⟩ | ⟨k, ht, _, hs, hrep, hc, _⟩
    · constructor
      · intro hd
        rcases hd with h | h <;> (rw [ht] at h; simp at h)
      · intro k hk
        rw [hs] at hk
        simp at hk
    · simp at hik
    · constructor
      · intro _
        rw [hs]
        exact ⟨rfl, hc⟩
      · intro k' hk'
        have : (k : ℤ) - (cfg.patience : ℤ) = k' := Option.some.inj (hs.symm.trans hk')
        rw [← this]
        exact ⟨hrep, mkReports_modelPath _, mkReports_phase _⟩

/-- A configuration with 10 maximum epochs and patience 2, run on constant
losses so that early stopping fires at epoch 2. -/
def cfgC8 : Config := ⟨0, 100, 10, 2, 1 / 100, "run"⟩

theorem single_checkpoint_per_reporting_run_witness :
    (mainRun cfgC8 flatScores .noIntr).saveEp.isSome = true ∧
    (mainRun cfgC8 flatScores .noIntr).crashed = false ∧
    (mainRun cfgC8 flatScores .noIntr).reports = some (mkReports 0) := by
  have h := single_checkpoint_per_reporting_run cfgC8 flatScores .noIntr
  have h1 := h.1 (Or.inl (by
    norm_num [mainRun, finishRun, loopFrom, hitsIntr, esStep, improves, esInit,
      flatScores, cfgC8]))
  have h2 := (h.2 0 (by
    norm_num [mainRun, finishRun, loopFrom, hitsIntr, esStep, improves, esInit,
      flatScores, cfgC8])).1
  exact ⟨h1.1, h1.2, h2⟩

/-- Claim C10: an interrupt during the very first epoch (epoch variable
bound to 0) produces `save_ep = -1` with no clamping; the run proceeds to
the reporting stage with checkpoint path `epoch-0001.pt` (Python's
`f'epoch{-1:05}.pt'`), a label no epoch ever persisted; and an interrupt
arriving before the loop binds `epoch` crashes the handler itself
(`NameError` on line 87), so no stop calculation happens at all. -/
theorem interrupt_during_first_epoch (cfg : Config) (losses : ℕ → ℚ)
    (h : 1 ≤ cfg.epochs) :
    (mainRun cfg losses (.atEpoch 0)).terminal = .interrupted ∧
    (mainRun cfg losses (.atEpoch 0)).saveEp = some (-1) ∧
    (mainRun cfg losses (.atEpoch 0)).reports = some (mkReports (-1)) ∧
    (∀ e ∈ (mainRun cfg losses (.atEpoch 0)).persisted, (e : ℤ) ≠ (-1 : ℤ)) ∧
    ckptName (-1) = "epoch-0001.pt" ∧
    (mainRun cfg losses .beforeLoop).crashed = true := by
  obtain ⟨f, hf⟩ : ∃ f, cfg.epochs = f + 1 := ⟨cfg.epochs - 1, by omega⟩
  have hr : mainRun cfg losses (.atEpoch 0) =
      finishRun (loopFrom cfg losses (some 0) 0 cfg.epochs esInit none) := rfl
  have hloop : loopFrom cfg losses (some 0) 0 (f + 1) esInit none =
      ⟨esInit, some 0, some (-1), .interrupted⟩ := by
    norm_num [loopFrom, hitsIntr]
  rw [hr, hf, hloop]
  refine ⟨rfl, rfl, rfl, ?_, by decide, rfl⟩
  intro e he
  simp [finishRun, esInit] at he

/-- A configuration with 4 maximum epochs. -/
def cfgC10 : Config := ⟨0, 100, 4, 2, 1 / 100, "run"⟩

theorem interrupt_during_first_epoch_witness :
    (mainRun cfgC10 decliningScores (.atEpoch 0)).saveEp = some (-1) ∧
    ckptName (-1) = "epoch-0001.pt" := by
  have h := interrupt_during_first_epoch cfgC10 decliningScores (by norm_num [cfgC10])
  exact ⟨h.2.1, h.2.2.2.2.1⟩

/-- A configuration with 2 maximum epochs and patience 5, so the run
executes epoch 1 in the running state without stopping. -/
def cfgC7 : Config := ⟨0, 100, 2, 5, 1 / 100, "run"⟩

/-- Claim C7, counterexample: on constant validation scores the run
executes epoch 1 while running (the loop variable reaches 1), but only
epoch 0's checkpoint is persisted — the policy saves a checkpoint only on
improvement, so epoch 1 has no retrievable checkpoint. -/
theorem epoch_checkpoint_not_unconditional :
    (mainRun cfgC7 flatScores .noIntr).epochVar = some 1 ∧
    (mainRun cfgC7 flatScores .noIntr).persisted = [0] ∧
    ¬ (1 ∈ (mainRun cfgC7 flatScores .noIntr).persisted) := by
  norm_num [mainRun, finishRun, loopFrom, hitsIntr, esStep, improves, esInit,
    flatScores, cfgC7]

/-- Internal state of `torch.optim.lr_scheduler.CosineAnnealingWarmRestarts`
(line 59): the position `T_cur` inside the current restart period, the
current period length `T_i`, and `last_epoch`. -/
structure SchedState where
  Tcur : ℚ
  Ti : ℚ
  lastEpoch : ℤ
deriving DecidableEq

/-- Scheduler state right after construction with `T_0 = 50`, `T_mult = 2`,
`eta_min = 0.001` (line 59): `T_cur = 0`, `T_i = T_0`, `last_epoch = 0`. -/
def schedInit : SchedState := ⟨0, 50, 0⟩

/-- `CosineAnnealingWarmRestarts.step(epoch)` called with an explicit
argument, as line 71 does: the argument is interpreted as the (possibly
fractional) epoch position.  A negative argument raises `ValueError`
(`none`); an argument below `T_0 = 50` sets `T_cur` to it directly with
`T_i = T_0`; otherwise the restart index `n = int(log2(epoch/T_0 + 1))`
positions the epoch inside the `n`-th doubled period.  Note the new state
does not depend on the previous one. -/
def schedStepAt (_s : SchedState) (v : ℚ) : Option SchedState :=
  if v < 0 then none
  else if v < 50 then some ⟨v, 50, ⌊v⌋⟩
  else
    let n : ℕ := Nat.log 2 (⌊v / 50 + 1⌋).toNat
    some ⟨v - 50 * ((2 : ℚ) ^ n - 1), 50 * (2 : ℚ) ^ n, ⌊v⌋⟩

/-- The per-epoch scheduler call of the controller (line 71):
`scheduler.step(loss/cfg.batch_size)` — the normalized validation loss is
passed where `step` expects an epoch position. -/
def schedulerAdvance (s : SchedState) (loss batchSize : ℚ) : Option SchedState :=
  schedStepAt s (loss / batchSize)

/-- The configured floor learning rate `eta_min = 0.001` (line 59). -/
noncomputable def etaMin : ℝ := 1 / 1000

/-- The learning rate `CosineAnnealingWarmRestarts` computes from its state:
`eta_min + (base_lr - eta_min) * (1 + cos(pi * T_cur / T_i)) / 2`. -/
noncomputable def schedLR (base : ℝ) (s : SchedState) : ℝ :=
  etaMin + (base - etaMin) * (1 + Real.cos (Real.pi * ((s.Tcur : ℝ) / (s.Ti : ℝ)))) / 2

/-- Claim C3: evaluating the scheduler call of line 71 at epoch 0 with base
learning rate 0.01, batch size 1 and two different validation losses (0 and
25) yields two different learning rates (0.01 versus 0.0055): the loss
argument repositions the cosine curve, because `step`'s parameter is an
epoch index, not an ignored metric. -/
theorem scheduler_learning_rate_depends_on_loss :
    (schedulerAdvance schedInit 0 1).map (schedLR (1 / 100)) ≠
      (schedulerAdvance schedInit 25 1).map (schedLR (1 / 100)) := by
  have h0 : schedulerAdvance schedInit 0 1 = some ⟨0, 50, 0⟩ := by
    norm_num [schedulerAdvance, schedStepAt]
  have h25 : schedulerAdvance schedInit 25 1 = some ⟨25, 50, 25⟩ := by
    norm_num [schedulerAdvance, schedStepAt]
  have v0 : schedLR (1 / 100) ⟨0, 50, 0⟩ = 1 / 100 := by
    show etaMin + ((1 : ℝ) / 100 - etaMin) *
        (1 + Real.cos (Real.pi * (((0 : ℚ) : ℝ) / ((50 : ℚ) : ℝ)))) / 2 = 1 / 100
    have harg : Real.pi * (((0 : ℚ) : ℝ) / ((50 : ℚ) : ℝ)) = 0 := by
      push_cast
      ring
    rw [harg, Real.cos_zero]
    norm_num [etaMin]
  have v25 : schedLR (1 / 100) ⟨25, 50, 25⟩ = 11 / 2000 := by
    show etaMin + ((1 : ℝ) / 100 - etaMin) *
        (1 + Real.cos (Real.pi * (((25 : ℚ) : ℝ) / ((50 : ℚ) : ℝ)))) / 2 = 11 / 2000
    have harg : Real.pi * (((25 : ℚ) : ℝ) / ((50 : ℚ) : ℝ)) = Real.pi / 2 := by
      push_cast
      ring
    rw [harg, Real.cos_pi_div_two]
    norm_num [etaMin]
  rw [h0, h25]
  simp only [Option.map]
  intro hcontra
  have hval := Option.some.inj hcontra
  rw [v0, v25] at hval
  norm_num at hval

/-- The two `torch.device` values the run can construct (line 27). -/
inductive TorchDevice where
  | cuda
  | cpu
deriving DecidableEq

/-- A Python value of the kinds compared on line 30: a `torch.device`
object or a `str`. -/
inductive PyVal where
  | device (d : TorchDevice)
  | str (s : String)
deriving DecidableEq

/-- Python `==` as evaluated on line 30: comparing a `torch.device` with a
`str` (or vice versa) yields False — `torch.device.__eq__` returns
`NotImplemented` for a non-device operand, `str.__eq__` likewise, and
Python then falls back to identity, which the two distinct objects fail. -/
def pyEq : PyVal → PyVal → Bool
  | .device a, .device b => a == b
  | .str a, .str b => a == b
  | _, _ => false

/-- Which random-number generators the setup block seeded. -/
structure SeedState where
  numpySeeded : Bool
  torchCpuSeeded : Bool
  torchCudaSeeded : Bool
deriving DecidableEq

/-- The seeding block (lines 27–31): numpy and the CPU torch generator are
seeded unconditionally; `torch.cuda.manual_seed` runs only under the guard
`device == 'cuda'`, where `device` is the `torch.device` object built on
line 27. -/
def setSeeds (cudaAvailable : Bool) : SeedState :=
  let device : TorchDevice := if cudaAvailable then .cuda else .cpu
  ⟨true, true, pyEq (.device device) (.str "cuda")⟩

/-- Claim C9: in both configurations (CUDA available or not), the guard on
line 30 compares a `torch.device` object against the string `'cuda'`, which
is never true, so the CUDA generator is never seeded while the numpy and
CPU generators always are. -/
theorem cuda_seed_branch_unreachable :
    ((setSeeds true).torchCudaSeeded = false ∧
      (setSeeds false).torchCudaSeeded = false) ∧
    ((setSeeds true).numpySeeded = true ∧ (setSeeds false).numpySeeded = true) ∧
    ((setSeeds true).torchCpuSeeded = true ∧
      (setSeeds false).torchCpuSeeded = true) :=
  ⟨⟨rfl, rfl⟩, ⟨rfl, rfl⟩, ⟨rfl, rfl⟩⟩

end CNN2D
